import Mathlib

/-!
Verification of the lateral path-tracking control core: a pure-pursuit
tracker (`pure_pursuit.py`), a Stanley tracker (`stanley.py`) and a hybrid
arbitrator (`hybrid_controller.py`).  The Python code is shallowly embedded
over the real numbers: CARLA locations/transforms become records of reals,
`numpy` trigonometry becomes `Real.arctan`/`Real.sin`/`Real.cos`, and the
crash on an empty waypoint list is modelled as an `Except` error.
-/

noncomputable section

namespace LaneKeep

/-- A 3-D point, modelling `carla.Location` (fields x, y, z). -/
structure Location where
  x : ℝ
  y : ℝ
  z : ℝ

/-- A vehicle pose, modelling `carla.Transform`: a location plus the yaw of
`transform.rotation` in degrees (the only rotation component the code reads). -/
structure Transform where
  location : Location
  yawDeg : ℝ

/-- A path waypoint: `waypoint.transform.location` and
`waypoint.transform.rotation.yaw` (degrees), the only fields the code reads. -/
structure Waypoint where
  loc : Location
  yawDeg : ℝ

instance : Inhabited Waypoint := ⟨⟨⟨0, 0, 0⟩, 0⟩⟩

/-- A velocity vector, modelling `vehicle.get_velocity()`. -/
structure Vec3 where
  x : ℝ
  y : ℝ
  z : ℝ

/-- A control command, modelling `carla.VehicleControl`. -/
structure VehicleControl where
  steer : ℝ
  throttle : ℝ
  brake : ℝ
  handBrake : Bool
  manualGearShift : Bool

/-- The error signalled when a tracker is handed an empty path (in Python the
code crashes on the empty waypoint list; the spec names this `InvalidPath`). -/
inductive Err where
  | invalidPath
deriving DecidableEq

/-- Degrees to radians, modelling `np.radians`. -/
def radians (d : ℝ) : ℝ := d * Real.pi / 180

/-- Clipping to an interval, modelling `np.clip(x, lo, hi)`. -/
def clip (lo hi x : ℝ) : ℝ := min hi (max lo x)

/-- Four-quadrant arctangent, modelling `np.arctan2(y, x)` on the reals. -/
def atan2 (y x : ℝ) : ℝ :=
  if 0 < x then Real.arctan (y / x)
  else if x < 0 then
    (if 0 ≤ y then Real.arctan (y / x) + Real.pi else Real.arctan (y / x) - Real.pi)
  else
    (if 0 < y then Real.pi / 2 else if y < 0 then -(Real.pi / 2) else 0)

/-- Wrapping an angle to (-pi, pi], modelling the idiom
`np.arctan2(np.sin(a), np.cos(a))` used by `stanley.py` and
`hybrid_controller.py`. -/
def wrapAngle (a : ℝ) : ℝ := atan2 (Real.sin a) (Real.cos a)

/-- Euclidean distance between locations, modelling `carla.Location.distance`. -/
def dist3 (a b : Location) : ℝ :=
  Real.sqrt ((a.x - b.x) ^ 2 + (a.y - b.y) ^ 2 + (a.z - b.z) ^ 2)

/-- Vehicle speed, modelling `get_speed`: the Euclidean norm of the velocity. -/
def speedOf (v : Vec3) : ℝ := Real.sqrt (v.x ^ 2 + v.y ^ 2 + v.z ^ 2)

/-- The scan of the closest-waypoint loops (`pure_pursuit.find_lookahead_point`,
`stanley.find_closest_waypoint`, `hybrid_controller.estimate_path_curvature`):
walk the remaining waypoints keeping the first index of strictly minimal
distance. -/
def nearestAux (loc : Location) : List Waypoint → ℕ → ℕ → ℝ → ℕ
  | [], _, bestIdx, _ => bestIdx
  | w :: rest, i, bestIdx, bestDist =>
    if dist3 loc w.loc < bestDist then nearestAux loc rest (i + 1) i (dist3 loc w.loc)
    else nearestAux loc rest (i + 1) bestIdx bestDist

/-- Index of the waypoint closest to `loc` (first index achieving the minimal
distance; `0` on the empty list, as in the Python loops where the initial
index 0 is never updated). -/
def nearestIdx (loc : Location) : List Waypoint → ℕ
  | [] => 0
  | w :: rest => nearestAux loc rest 1 0 (dist3 loc w.loc)

/-- The waypoint at index `i` (a harmless default out of bounds; every use is
in bounds). -/
def wpAt (ws : List Waypoint) (i : ℕ) : Waypoint := ws.getD i default

/-- The forward scan of `PurePursuitController.find_lookahead_point`: from
index `i` up to (excluding) `stop`, the location of the first waypoint at
distance at least `lookaheadDistance` from the vehicle, if any. -/
def lookScan (lookaheadDistance : ℝ) (loc : Location) (ws : List Waypoint) (stop i : ℕ) :
    Option Location :=
  if _h : i < stop then
    if lookaheadDistance ≤ dist3 loc (wpAt ws i).loc then some (wpAt ws i).loc
    else lookScan lookaheadDistance loc ws stop (i + 1)
  else none
termination_by stop - i

/-- Modelling `PurePursuitController.find_lookahead_point`: find the closest
waypoint, scan forward at most 50 waypoints for one at distance at least the
lookahead distance, and otherwise fall back to index `closest + 30` when valid
and to the last waypoint when not.  On the empty path the Python code crashes
on `waypoints[-1]`; this is the `InvalidPath` error. -/
def findLookaheadPoint (lookaheadDistance : ℝ) (loc : Location) (ws : List Waypoint) :
    Except Err Location :=
  match ws with
  | [] => .error .invalidPath
  | _ :: _ =>
    let ci := nearestIdx loc ws
    match lookScan lookaheadDistance loc ws (min (ci + 50) ws.length) ci with
    | some p => .ok p
    | none =>
      if ci + 30 < ws.length then .ok (wpAt ws (ci + 30)).loc
      else .ok (ws.getLastD default).loc

/-- The longitudinal coordinate of `target` in the vehicle frame
(`local_x` in `PurePursuitController.compute_steering`). -/
def localX (t : Transform) (target : Location) : ℝ :=
  (target.x - t.location.x) * Real.cos (radians t.yawDeg) +
    (target.y - t.location.y) * Real.sin (radians t.yawDeg)

/-- The lateral coordinate of `target` in the vehicle frame
(`local_y` in `PurePursuitController.compute_steering`). -/
def localY (t : Transform) (target : Location) : ℝ :=
  -(target.x - t.location.x) * Real.sin (radians t.yawDeg) +
    (target.y - t.location.y) * Real.cos (radians t.yawDeg)

/-- Modelling `PurePursuitController.compute_steering`: the pure-pursuit
curvature toward the target, turned into a steering angle and normalized by
the 70-degree maximal steering angle, clipped to [-1, 1]. -/
def computeSteering (t : Transform) (target : Location) (wheelbase : ℝ) : ℝ :=
  let ld2 := localX t target ^ 2 + localY t target ^ 2
  let curvature := if ld2 > 0.01 then 2 * localY t target / ld2 else 0
  clip (-1) 1 (Real.arctan (curvature * wheelbase) / radians 70)

/-- Modelling `PurePursuitController.run_step`: steering from the lookahead
point plus the bang-bang speed control toward `targetSpeed` (km/h). -/
def ppRunStep (lookaheadDistance wheelbase targetSpeed : ℝ) (t : Transform) (v : Vec3)
    (ws : List Waypoint) : Except Err VehicleControl :=
  match findLookaheadPoint lookaheadDistance t.location ws with
  | .error e => .error e
  | .ok target =>
    let steering := computeSteering t target wheelbase
    if speedOf v < targetSpeed / 3.6 then
      .ok { steer := steering, throttle := 0.5, brake := 0,
            handBrake := false, manualGearShift := false }
    else
      .ok { steer := steering, throttle := 0, brake := 0.3,
            handBrake := false, manualGearShift := false }

/-- Modelling `StanleyController.compute_cross_track_error`: the lateral
component, in the vehicle frame, of the vector from the vehicle to the
closest waypoint. -/
def computeCrossTrackError (t : Transform) (cw : Waypoint) : ℝ :=
  -(cw.loc.x - t.location.x) * Real.sin (radians t.yawDeg) +
    (cw.loc.y - t.location.y) * Real.cos (radians t.yawDeg)

/-- Modelling `StanleyController.compute_heading_error`: the path heading is
the direction to the next waypoint when one exists, else the closest
waypoint's own stored heading; the difference to the vehicle heading is
wrapped to (-pi, pi]. -/
def computeHeadingError (t : Transform) (cw : Waypoint) (nextWp : Option Waypoint) : ℝ :=
  let pathYaw :=
    match nextWp with
    | some nw => atan2 (nw.loc.y - cw.loc.y) (nw.loc.x - cw.loc.x)
    | none => radians cw.yawDeg
  wrapAngle (pathYaw - radians t.yawDeg)

/-- Modelling `StanleyController.compute_steering`: the Stanley control law
`headingError + arctan(k * crossTrackError / max(speed, 0.1))`, normalized by
the 70-degree maximal steering angle and clipped to [-1, 1].  On the empty
path the Python code crashes dereferencing the `None` closest waypoint; this
is the `InvalidPath` error. -/
def stanleyComputeSteering (k : ℝ) (t : Transform) (vehicleSpeed : ℝ) (ws : List Waypoint) :
    Except Err ℝ :=
  match ws with
  | [] => .error .invalidPath
  | _ :: _ =>
    let ci := nearestIdx t.location ws
    let cw := wpAt ws ci
    let nextWp : Option Waypoint :=
      if ci + 1 < ws.length then some (wpAt ws (ci + 1)) else none
    let headingError := computeHeadingError t cw nextWp
    let crossTrackError := computeCrossTrackError t cw
    let speed := max vehicleSpeed 0.1
    let crossTrackTerm := Real.arctan (k * crossTrackError / speed)
    .ok (clip (-1) 1 ((headingError + crossTrackTerm) / radians 70))

/-- Modelling `StanleyController.run_step`: Stanley steering plus the
bang-bang speed control toward `targetSpeed` (km/h). -/
def stanleyRunStep (k targetSpeed : ℝ) (t : Transform) (v : Vec3) (ws : List Waypoint) :
    Except Err VehicleControl :=
  match stanleyComputeSteering k t (speedOf v) ws with
  | .error e => .error e
  | .ok steering =>
    if speedOf v < targetSpeed / 3.6 then
      .ok { steer := steering, throttle := 0.5, brake := 0,
            handBrake := false, manualGearShift := false }
    else
      .ok { steer := steering, throttle := 0, brake := 0.3,
            handBrake := false, manualGearShift := false }

/-- The mutable state of a `HybridController` instance: configuration, the
two owned trackers' mutable parameters, and the telemetry fields. -/
structure HybridState where
  ppLookahead : ℝ
  stanleyK : ℝ
  curvatureThreshold : ℝ
  blendZone : ℝ
  mode : String
  speedAdaptive : Bool
  activeController : String
  blendWeight : ℝ
  currentCurvature : ℝ

/-- Consecutive displacement vectors of a list of planar points (the columns
`np.diff` computes in `estimate_path_curvature`). -/
def dispOf (pts : List (ℝ × ℝ)) : List (ℝ × ℝ) :=
  (pts.zip pts.tail).map fun p => (p.2.1 - p.1.1, p.2.2 - p.1.2)

/-- Modelling `HybridController.estimate_path_curvature`: sum of the
absolute wrapped heading changes between consecutive path segments, over the
arc length of all but the last segment, on a window of waypoints starting at
the closest one. -/
def estimatePathCurvature (loc : Location) (ws : List Waypoint) (lookaheadPoints : ℕ) : ℝ :=
  let ci := nearestIdx loc ws
  let endIdx := min (ci + lookaheadPoints) (ws.length - 1)
  if endIdx - ci < 3 then 0
  else
    let points : List (ℝ × ℝ) :=
      (List.range (endIdx - ci)).map fun j => ((wpAt ws (ci + j)).loc.x, (wpAt ws (ci + j)).loc.y)
    if points.length < 3 then 0
    else
      let disp := dispOf points
      let headings := disp.map fun d => atan2 d.2 d.1
      if 1 < headings.length then
        let headingChange := (headings.zip headings.tail).map fun p => |p.2 - p.1|
        let wrapped := headingChange.map fun a => wrapAngle a
        let dists := disp.dropLast.map fun d => Real.sqrt (d.1 ^ 2 + d.2 ^ 2)
        let total := dists.sum
        if 0.1 < total then (wrapped.map fun a => |a|).sum / total else 0
      else 0

/-- Modelling the curvature-only half of `HybridController.compute_blend_weight`
(lines 132-142, before the speed-adaptive adjustment). -/
def computeBlendWeightBase (threshold blendZone curvature : ℝ) : ℝ :=
  if curvature < threshold - blendZone then 0
  else if curvature > threshold + blendZone then 1
  else clip 0 1 ((curvature - (threshold - blendZone)) / (2 * blendZone))

/-- Modelling `HybridController.compute_blend_weight`, with the
speed-adaptive high-speed bias toward pure pursuit. -/
def computeBlendWeight (threshold blendZone : ℝ) (speedAdaptive : Bool) (curvature speed : ℝ) :
    ℝ :=
  let weight := computeBlendWeightBase threshold blendZone curvature
  if speedAdaptive then weight * (1 - 0.3 * clip 0 1 (speed / 15)) else weight

/-- Modelling `HybridController.adaptive_lookahead`. -/
def adaptiveLookahead (speed : ℝ) : ℝ := min (2.0 + speed * 0.3) 6.0

/-- Modelling `HybridController.adaptive_stanley_gain`. -/
def adaptiveStanleyGain (speed : ℝ) : ℝ :=
  if speed < 5.0 then 1.0 else if speed < 10.0 then 0.7 else 0.5

/-- Modelling `HybridController.run_step` as explicit state passing: the
returned pair is the tick's command (or error) together with the mutated
instance state.  Mutations that the Python code performs before an exception
propagates (curvature telemetry, scheduled parameters, the active-controller
label of the discrete modes) are kept in the returned state. -/
def hybridRunStep (st : HybridState) (t : Transform) (v : Vec3) (ws : List Waypoint) :
    Except Err VehicleControl × HybridState :=
  let speed := speedOf v
  let curvature := estimatePathCurvature t.location ws 10
  let st1 : HybridState := { st with currentCurvature := curvature }
  let st2 : HybridState :=
    if st.speedAdaptive then
      { st1 with ppLookahead := adaptiveLookahead speed, stanleyK := adaptiveStanleyGain speed }
    else st1
  if st.mode = "switching" then
    if curvature > st.curvatureThreshold then
      (stanleyRunStep st2.stanleyK 30 t v ws, { st2 with activeController := "Stanley" })
    else
      (ppRunStep st2.ppLookahead 2.875 30 t v ws, { st2 with activeController := "Pure Pursuit" })
  else if st.mode = "blending" then
    match ppRunStep st2.ppLookahead 2.875 30 t v ws with
    | .error e => (.error e, st2)
    | .ok ppControl =>
      match stanleyRunStep st2.stanleyK 30 t v ws with
      | .error e => (.error e, st2)
      | .ok stanleyControl =>
        let weight := computeBlendWeight st.curvatureThreshold st.blendZone st.speedAdaptive
          curvature speed
        let st3 : HybridState := { st2 with blendWeight := weight }
        let blended := (1 - weight) * ppControl.steer + weight * stanleyControl.steer
        let ctrl : VehicleControl :=
          { steer := clip (-1) 1 blended, throttle := ppControl.throttle,
            brake := ppControl.brake, handBrake := false, manualGearShift := false }
        let st4 : HybridState :=
          { st3 with activeController :=
              if weight < 0.3 then "Pure Pursuit (blended)"
              else if weight > 0.7 then "Stanley (blended)"
              else "Hybrid (50/50)" }
        (.ok ctrl, st4)
  else
    if curvature > st.curvatureThreshold + st.blendZone ∨
        (curvature > st.curvatureThreshold ∧ speed < 8.0) then
      (stanleyRunStep st2.stanleyK 30 t v ws,
        { st2 with activeController := "Stanley", blendWeight := 1.0 })
    else
      (ppRunStep st2.ppLookahead 2.875 30 t v ws,
        { st2 with activeController := "Pure Pursuit", blendWeight := 0.0 })

/-- Modelling `HybridController.get_controller_info`: the telemetry snapshot
(label, blend weight, curvature, scheduled lookahead, scheduled gain). -/
def getControllerInfo (st : HybridState) : String × ℝ × ℝ × ℝ × ℝ :=
  (st.activeController, st.blendWeight, st.currentCurvature, st.ppLookahead, st.stanleyK)

/-- The `ControlCommand` invariant of the spec: steering in [-1, 1], and
throttle and brake mutually exclusive (one of them is exactly 0). -/
def CmdOK (c : VehicleControl) : Prop :=
  -1 ≤ c.steer ∧ c.steer ≤ 1 ∧ (c.throttle = 0 ∨ c.brake = 0)

/-- A tick result satisfies the invariant whenever it returns a command. -/
def ResultOK : Except Err VehicleControl → Prop
  | .ok c => CmdOK c
  | .error _ => True

lemma resultOK_error (e : Err) : ResultOK (.error e) := trivial

lemma resultOK_ok {c : VehicleControl} (h : CmdOK c) : ResultOK (.ok c) := h

lemma cmdOK_of_resultOK_ok {r : Except Err VehicleControl} {c : VehicleControl}
    (hr : ResultOK r) (h : r = .ok c) : CmdOK c := by
  subst h; exact hr

lemma neg_one_le_clip (x : ℝ) : -1 ≤ clip (-1) 1 x :=
  le_min (by norm_num) (le_max_left _ _)

lemma clip_le_one (x : ℝ) : clip (-1) 1 x ≤ 1 := min_le_left _ _

lemma clip_zero : clip (-1) 1 0 = 0 := by
  simp only [clip]
  norm_num

lemma computeSteering_mem (t : Transform) (target : Location) (wb : ℝ) :
    -1 ≤ computeSteering t target wb ∧ computeSteering t target wb ≤ 1 :=
  ⟨neg_one_le_clip _, clip_le_one _⟩

lemma pp_resultOK (la wb ts : ℝ) (t : Transform) (v : Vec3) (ws : List Waypoint) :
    ResultOK (ppRunStep la wb ts t v ws) := by
  unfold ppRunStep
  split
  · trivial
  · split
    · exact ⟨neg_one_le_clip _, clip_le_one _, Or.inr rfl⟩
    · exact ⟨neg_one_le_clip _, clip_le_one _, Or.inl rfl⟩

lemma stanleyComputeSteering_ok_bounds {k sp : ℝ} {t : Transform} {ws : List Waypoint} {s : ℝ}
    (h : stanleyComputeSteering k t sp ws = .ok s) : -1 ≤ s ∧ s ≤ 1 := by
  cases ws with
  | nil => simp [stanleyComputeSteering] at h
  | cons w rest =>
    simp only [stanleyComputeSteering] at h
    injection h with h
    subst h
    exact ⟨neg_one_le_clip _, clip_le_one _⟩

lemma stanley_resultOK (k ts : ℝ) (t : Transform) (v : Vec3) (ws : List Waypoint) :
    ResultOK (stanleyRunStep k ts t v ws) := by
  unfold stanleyRunStep
  split
  · trivial
  · next s hs =>
    have hb := stanleyComputeSteering_ok_bounds hs
    split
    · exact ⟨hb.1, hb.2, Or.inr rfl⟩
    · exact ⟨hb.1, hb.2, Or.inl rfl⟩

lemma ppRunStep_ok_excl {la wb ts : ℝ} {t : Transform} {v : Vec3} {ws : List Waypoint}
    {c : VehicleControl} (h : ppRunStep la wb ts t v ws = .ok c) :
    c.throttle = 0 ∨ c.brake = 0 :=
  (cmdOK_of_resultOK_ok (pp_resultOK la wb ts t v ws) h).2.2

lemma hybrid_resultOK (st : HybridState) (t : Transform) (v : Vec3) (ws : List Waypoint) :
    ResultOK (hybridRunStep st t v ws).1 := by
  unfold hybridRunStep
  dsimp only
  repeat' split
  all_goals first
    | trivial
    | exact stanley_resultOK _ _ _ _ _
    | exact pp_resultOK _ _ _ _ _ _
    | (refine ⟨neg_one_le_clip _, clip_le_one _, ?_⟩
       dsimp only
       solve_by_elim [ppRunStep_ok_excl])

/-- C1: for every path, pose, velocity and configuration, any `ControlCommand`
returned by `run_step` of the pure-pursuit tracker, the Stanley tracker or the
hybrid arbitrator (in every mode) has steer in [-1, 1] and mutually exclusive
throttle and brake (one of them exactly 0). -/
theorem control_command_invariant (la wb ts k ts' : ℝ) (t : Transform) (v : Vec3)
    (ws : List Waypoint) (st : HybridState) :
    ResultOK (ppRunStep la wb ts t v ws) ∧ ResultOK (stanleyRunStep k ts' t v ws) ∧
      ResultOK (hybridRunStep st t v ws).1 :=
  ⟨pp_resultOK la wb ts t v ws, stanley_resultOK k ts' t v ws, hybrid_resultOK st t v ws⟩

/-- C2: the pure-pursuit steering equals `atan(curvature * wheelbase)`
normalized by 70 degrees and clipped to [-1, 1], with curvature
`2 * local_y / L2` when `L2 > 0.01` and 0 otherwise; in particular the steer
is exactly 0 whenever `local_y = 0`. -/
theorem geometric_steering_formula (t : Transform) (target : Location) (wb : ℝ) :
    computeSteering t target wb =
      clip (-1) 1 (Real.arctan
        ((if localX t target ^ 2 + localY t target ^ 2 > 0.01 then
            2 * localY t target / (localX t target ^ 2 + localY t target ^ 2)
          else 0) * wb) / radians 70) ∧
    (localY t target = 0 → computeSteering t target wb = 0) := by
  refine ⟨rfl, fun h => ?_⟩
  simp only [computeSteering, h, mul_zero, zero_div, ite_self, zero_mul, Real.arctan_zero]
  exact clip_zero

/-- A concrete instance for C2: a target dead ahead of a vehicle at the
origin has `local_y = 0` and steering exactly 0. -/
theorem geometric_steering_witness :
    localY { location := ⟨0, 0, 0⟩, yawDeg := 0 } ⟨1, 0, 0⟩ = 0 ∧
    computeSteering { location := ⟨0, 0, 0⟩, yawDeg := 0 } ⟨1, 0, 0⟩ 2.875 = 0 := by
  have hy : localY { location := ⟨0, 0, 0⟩, yawDeg := 0 } ⟨1, 0, 0⟩ = 0 := by
    norm_num [localY, radians]
  exact ⟨hy, (geometric_steering_formula _ _ _).2 hy⟩

lemma ppRunStep_nil (la wb ts : ℝ) (t : Transform) (v : Vec3) :
    ppRunStep la wb ts t v [] = .error .invalidPath := rfl

lemma stanleyRunStep_nil (k ts : ℝ) (t : Transform) (v : Vec3) :
    stanleyRunStep k ts t v [] = .error .invalidPath := rfl

/-- C8: on the empty path the waypoint locator signals `InvalidPath`, and
every tracker operation that depends on it (pure pursuit, Stanley, and the
hybrid arbitrator in every mode) propagates the error for the tick instead
of returning a steering command. -/
theorem empty_path_invalid (la k ts ts' sp : ℝ) (t : Transform) (v : Vec3) (st : HybridState) :
    findLookaheadPoint la t.location [] = .error .invalidPath ∧
    stanleyComputeSteering k t sp [] = .error .invalidPath ∧
    ppRunStep la 2.875 ts t v [] = .error .invalidPath ∧
    stanleyRunStep k ts' t v [] = .error .invalidPath ∧
    (hybridRunStep st t v []).1 = .error .invalidPath := by
  refine ⟨rfl, rfl, rfl, rfl, ?_⟩
  unfold hybridRunStep
  dsimp only
  repeat' split
  all_goals first
    | rfl
    | exact stanleyRunStep_nil _ _ _ _
    | exact ppRunStep_nil _ _ _ _ _
    | simp_all [ppRunStep_nil]

/-- The curvature/speed condition of the adaptive mode
(`use_stanley` in `HybridController.run_step`). -/
def adaptiveUsesStanley (st : HybridState) (t : Transform) (v : Vec3) (ws : List Waypoint) :
    Prop :=
  estimatePathCurvature t.location ws 10 > st.curvatureThreshold + st.blendZone ∨
    (estimatePathCurvature t.location ws 10 > st.curvatureThreshold ∧ speedOf v < 8.0)

/-- The lookahead distance the tick actually uses. -/
def schedLookahead (st : HybridState) (v : Vec3) : ℝ :=
  if st.speedAdaptive then adaptiveLookahead (speedOf v) else st.ppLookahead

/-- The Stanley gain the tick actually uses. -/
def schedGain (st : HybridState) (v : Vec3) : ℝ :=
  if st.speedAdaptive then adaptiveStanleyGain (speedOf v) else st.stanleyK

lemma hybridRunStep_adaptive_stanley (st : HybridState) (t : Transform) (v : Vec3)
    (ws : List Waypoint) (hm1 : st.mode ≠ "switching") (hm2 : st.mode ≠ "blending")
    (hc : adaptiveUsesStanley st t v ws) :
    hybridRunStep st t v ws =
      (stanleyRunStep (schedGain st v) 30 t v ws,
        { st with currentCurvature := estimatePathCurvature t.location ws 10,
                  ppLookahead := schedLookahead st v, stanleyK := schedGain st v,
                  activeController := "Stanley", blendWeight := 1.0 }) := by
  unfold adaptiveUsesStanley at hc
  unfold hybridRunStep schedGain schedLookahead
  dsimp only
  rw [if_neg hm1, if_neg hm2, if_pos hc]
  cases hsa : st.speedAdaptive <;> simp [hsa]

lemma hybridRunStep_adaptive_pp (st : HybridState) (t : Transform) (v : Vec3)
    (ws : List Waypoint) (hm1 : st.mode ≠ "switching") (hm2 : st.mode ≠ "blending")
    (hc : ¬ adaptiveUsesStanley st t v ws) :
    hybridRunStep st t v ws =
      (ppRunStep (schedLookahead st v) 2.875 30 t v ws,
        { st with currentCurvature := estimatePathCurvature t.location ws 10,
                  ppLookahead := schedLookahead st v, stanleyK := schedGain st v,
                  activeController := "Pure Pursuit", blendWeight := 0.0 }) := by
  unfold adaptiveUsesStanley at hc
  unfold hybridRunStep schedGain schedLookahead
  dsimp only
  rw [if_neg hm1, if_neg hm2, if_neg hc]
  cases hsa : st.speedAdaptive <;> simp [hsa]

/-- C9 (amended): when speed-adaptive scheduling is enabled, `run_step`
overwrites the trackers' configured parameters with the scheduled values:
after the call the stored lookahead distance and Stanley gain equal the
scheduled ones (they are not restored to their pre-call values). -/
theorem scheduled_params_overwrite (st : HybridState) (t : Transform) (v : Vec3)
    (ws : List Waypoint) (h : st.speedAdaptive = true) :
    (hybridRunStep st t v ws).2.ppLookahead = adaptiveLookahead (speedOf v) ∧
    (hybridRunStep st t v ws).2.stanleyK = adaptiveStanleyGain (speedOf v) := by
  unfold hybridRunStep
  dsimp only
  simp only [if_pos h]
  repeat' split
  all_goals simp

/-- A concrete instance for C9 (amended): at speed 10 with configured
lookahead 3 and gain 0.9, the stored parameters after the call are the
scheduled ones. -/
theorem scheduled_params_overwrite_witness :
    ({ ppLookahead := 3, stanleyK := 0.9, curvatureThreshold := 0.05, blendZone := 0.02,
       mode := "adaptive", speedAdaptive := true, activeController := "Hybrid",
       blendWeight := 0.5, currentCurvature := 0 } : HybridState).speedAdaptive = true ∧
    (hybridRunStep
        { ppLookahead := 3, stanleyK := 0.9, curvatureThreshold := 0.05, blendZone := 0.02,
          mode := "adaptive", speedAdaptive := true, activeController := "Hybrid",
          blendWeight := 0.5, currentCurvature := 0 }
        { location := ⟨0, 0, 0⟩, yawDeg := 0 } ⟨10, 0, 0⟩ []).2.ppLookahead =
      adaptiveLookahead (speedOf ⟨10, 0, 0⟩) ∧
    (hybridRunStep
        { ppLookahead := 3, stanleyK := 0.9, curvatureThreshold := 0.05, blendZone := 0.02,
          mode := "adaptive", speedAdaptive := true, activeController := "Hybrid",
          blendWeight := 0.5, currentCurvature := 0 }
        { location := ⟨0, 0, 0⟩, yawDeg := 0 } ⟨10, 0, 0⟩ []).2.stanleyK =
      adaptiveStanleyGain (speedOf ⟨10, 0, 0⟩) := by
  have h := scheduled_params_overwrite
    { ppLookahead := 3, stanleyK := 0.9, curvatureThreshold := 0.05, blendZone := 0.02,
      mode := "adaptive", speedAdaptive := true, activeController := "Hybrid",
      blendWeight := 0.5, currentCurvature := 0 }
    { location := ⟨0, 0, 0⟩, yawDeg := 0 } ⟨10, 0, 0⟩ [] rfl
  exact ⟨rfl, h.1, h.2⟩

lemma speedOf_ten : speedOf ⟨10, 0, 0⟩ = 10 := by
  simp only [speedOf]
  rw [show (10 : ℝ) ^ 2 + 0 ^ 2 + 0 ^ 2 = 10 ^ 2 by norm_num, Real.sqrt_sq (by norm_num)]

lemma estimatePathCurvature_nil (loc : Location) (n : ℕ) :
    estimatePathCurvature loc [] n = 0 := by
  simp [estimatePathCurvature, nearestIdx]

/-- C9 counterexample: with configured lookahead 3 and gain 0.9 at speed
10 m/s, the stored lookahead after `run_step` is 5 and the stored gain is
0.5 - both differ from their pre-call values, refuting the claim that the
configured constants are unchanged after the invocation. -/
theorem scheduled_params_not_restored :
    (hybridRunStep
        { ppLookahead := 3, stanleyK := 0.9, curvatureThreshold := 0.05, blendZone := 0.02,
          mode := "adaptive", speedAdaptive := true, activeController := "Hybrid",
          blendWeight := 0.5, currentCurvature := 0 }
        { location := ⟨0, 0, 0⟩, yawDeg := 0 } ⟨10, 0, 0⟩ []).2.ppLookahead ≠ 3 ∧
    (hybridRunStep
        { ppLookahead := 3, stanleyK := 0.9, curvatureThreshold := 0.05, blendZone := 0.02,
          mode := "adaptive", speedAdaptive := true, activeController := "Hybrid",
          blendWeight := 0.5, currentCurvature := 0 }
        { location := ⟨0, 0, 0⟩, yawDeg := 0 } ⟨10, 0, 0⟩ []).2.stanleyK ≠ 0.9 := by
  rw [hybridRunStep_adaptive_pp _ _ _ _ (by decide) (by decide) ?hc]
  case hc =>
    unfold adaptiveUsesStanley
    rw [estimatePathCurvature_nil]
    dsimp only
    norm_num
  have hla : schedLookahead
      { ppLookahead := 3, stanleyK := 0.9, curvatureThreshold := 0.05, blendZone := 0.02,
        mode := "adaptive", speedAdaptive := true, activeController := "Hybrid",
        blendWeight := 0.5, currentCurvature := 0 } ⟨10, 0, 0⟩ = 5 := by
    simp only [schedLookahead, speedOf_ten]
    norm_num [adaptiveLookahead, min_def]
  have hk : schedGain
      { ppLookahead := 3, stanleyK := 0.9, curvatureThreshold := 0.05, blendZone := 0.02,
        mode := "adaptive", speedAdaptive := true, activeController := "Hybrid",
        blendWeight := 0.5, currentCurvature := 0 } ⟨10, 0, 0⟩ = 0.5 := by
    simp only [schedGain, speedOf_ten]
    norm_num [adaptiveStanleyGain]
  refine ⟨?_, ?_⟩ <;> dsimp only
  · rw [hla]; norm_num
  · rw [hk]; norm_num

/-- C6: in adaptive mode the arbitrator dispatches to the Stanley tracker
exactly when `curvature > threshold + blendZone` or
(`curvature > threshold` and `speed < 8.0`), recording blend weight 1.0,
and otherwise dispatches to the pure-pursuit tracker recording blend
weight 0.0. -/
theorem adaptive_mode_selection (st : HybridState) (t : Transform) (v : Vec3)
    (ws : List Waypoint) (hm : st.mode = "adaptive") :
    (adaptiveUsesStanley st t v ws →
      (hybridRunStep st t v ws).1 = stanleyRunStep (schedGain st v) 30 t v ws ∧
      (hybridRunStep st t v ws).2.blendWeight = 1.0) ∧
    (¬ adaptiveUsesStanley st t v ws →
      (hybridRunStep st t v ws).1 = ppRunStep (schedLookahead st v) 2.875 30 t v ws ∧
      (hybridRunStep st t v ws).2.blendWeight = 0.0) := by
  have hm1 : st.mode ≠ "switching" := by rw [hm]; decide
  have hm2 : st.mode ≠ "blending" := by rw [hm]; decide
  constructor
  · intro hc
    rw [hybridRunStep_adaptive_stanley st t v ws hm1 hm2 hc]
    exact ⟨rfl, rfl⟩
  · intro hc
    rw [hybridRunStep_adaptive_pp st t v ws hm1 hm2 hc]
    exact ⟨rfl, rfl⟩

/-- A concrete instance for C6: on an empty path the curvature estimate is 0,
the Stanley condition fails, and the adaptive arbitrator picks pure pursuit
with blend weight 0. -/
theorem adaptive_mode_selection_witness :
    (hybridRunStep
        { ppLookahead := 3, stanleyK := 0.5, curvatureThreshold := 0.05, blendZone := 0.02,
          mode := "adaptive", speedAdaptive := true, activeController := "Hybrid",
          blendWeight := 0.5, currentCurvature := 0 }
        { location := ⟨0, 0, 0⟩, yawDeg := 0 } ⟨0, 0, 0⟩ []).1 =
      ppRunStep
        (schedLookahead
          { ppLookahead := 3, stanleyK := 0.5, curvatureThreshold := 0.05, blendZone := 0.02,
            mode := "adaptive", speedAdaptive := true, activeController := "Hybrid",
            blendWeight := 0.5, currentCurvature := 0 } ⟨0, 0, 0⟩)
        2.875 30 { location := ⟨0, 0, 0⟩, yawDeg := 0 } ⟨0, 0, 0⟩ [] ∧
    (hybridRunStep
        { ppLookahead := 3, stanleyK := 0.5, curvatureThreshold := 0.05, blendZone := 0.02,
          mode := "adaptive", speedAdaptive := true, activeController := "Hybrid",
          blendWeight := 0.5, currentCurvature := 0 }
        { location := ⟨0, 0, 0⟩, yawDeg := 0 } ⟨0, 0, 0⟩ []).2.blendWeight = 0.0 := by
  have h := adaptive_mode_selection
    { ppLookahead := 3, stanleyK := 0.5, curvatureThreshold := 0.05, blendZone := 0.02,
      mode := "adaptive", speedAdaptive := true, activeController := "Hybrid",
      blendWeight := 0.5, currentCurvature := 0 }
    { location := ⟨0, 0, 0⟩, yawDeg := 0 } ⟨0, 0, 0⟩ [] rfl
  refine h.2 ?_
  unfold adaptiveUsesStanley
  rw [estimatePathCurvature_nil]
  dsimp only
  norm_num

/-- C10: for every mode string other than "switching" and "blending", the
arbitrator behaves exactly as in mode "adaptive" on the same inputs and
prior state: same tick result and same telemetry snapshot, with no error
for the unrecognized mode. -/
theorem unrecognized_mode_as_adaptive (st : HybridState) (t : Transform) (v : Vec3)
    (ws : List Waypoint) (h1 : st.mode ≠ "switching") (h2 : st.mode ≠ "blending") :
    (hybridRunStep st t v ws).1 = (hybridRunStep { st with mode := "adaptive" } t v ws).1 ∧
    getControllerInfo (hybridRunStep st t v ws).2 =
      getControllerInfo (hybridRunStep { st with mode := "adaptive" } t v ws).2 := by
  by_cases hc : adaptiveUsesStanley st t v ws
  · rw [hybridRunStep_adaptive_stanley st t v ws h1 h2 hc,
      hybridRunStep_adaptive_stanley { st with mode := "adaptive" } t v ws
        (show ("adaptive" : String) ≠ "switching" by decide)
        (show ("adaptive" : String) ≠ "blending" by decide) hc]
    exact ⟨rfl, rfl⟩
  · rw [hybridRunStep_adaptive_pp st t v ws h1 h2 hc,
      hybridRunStep_adaptive_pp { st with mode := "adaptive" } t v ws
        (show ("adaptive" : String) ≠ "switching" by decide)
        (show ("adaptive" : String) ≠ "blending" by decide) hc]
    exact ⟨rfl, rfl⟩

/-- A concrete instance for C10: the unrecognized mode string "foo" behaves
exactly like "adaptive". -/
theorem unrecognized_mode_witness :
    (hybridRunStep
        { ppLookahead := 3, stanleyK := 0.5, curvatureThreshold := 0.05, blendZone := 0.02,
          mode := "foo", speedAdaptive := true, activeController := "Hybrid",
          blendWeight := 0.5, currentCurvature := 0 }
        { location := ⟨0, 0, 0⟩, yawDeg := 0 } ⟨0, 0, 0⟩ []).1 =
      (hybridRunStep
        { ppLookahead := 3, stanleyK := 0.5, curvatureThreshold := 0.05, blendZone := 0.02,
          mode := "adaptive", speedAdaptive := true, activeController := "Hybrid",
          blendWeight := 0.5, currentCurvature := 0 }
        { location := ⟨0, 0, 0⟩, yawDeg := 0 } ⟨0, 0, 0⟩ []).1 ∧
    getControllerInfo (hybridRunStep
        { ppLookahead := 3, stanleyK := 0.5, curvatureThreshold := 0.05, blendZone := 0.02,
          mode := "foo", speedAdaptive := true, activeController := "Hybrid",
          blendWeight := 0.5, currentCurvature := 0 }
        { location := ⟨0, 0, 0⟩, yawDeg := 0 } ⟨0, 0, 0⟩ []).2 =
      getControllerInfo (hybridRunStep
        { ppLookahead := 3, stanleyK := 0.5, curvatureThreshold := 0.05, blendZone := 0.02,
          mode := "adaptive", speedAdaptive := true, activeController := "Hybrid",
          blendWeight := 0.5, currentCurvature := 0 }
        { location := ⟨0, 0, 0⟩, yawDeg := 0 } ⟨0, 0, 0⟩ []).2 :=
  unrecognized_mode_as_adaptive
    { ppLookahead := 3, stanleyK := 0.5, curvatureThreshold := 0.05, blendZone := 0.02,
      mode := "foo", speedAdaptive := true, activeController := "Hybrid",
      blendWeight := 0.5, currentCurvature := 0 }
    { location := ⟨0, 0, 0⟩, yawDeg := 0 } ⟨0, 0, 0⟩ [] (by decide) (by decide)

lemma blendBase_eq_clip (th bz c : ℝ) (hbz : 0 < bz) :
    computeBlendWeightBase th bz c = min 1 (max 0 ((c - (th - bz)) / (2 * bz))) := by
  unfold computeBlendWeightBase clip
  split_ifs with h1 h2
  · have hr : (c - (th - bz)) / (2 * bz) < 0 :=
      div_neg_of_neg_of_pos (by linarith) (by linarith)
    rw [max_eq_left hr.le, min_eq_right zero_le_one]
  · have hr : 1 < (c - (th - bz)) / (2 * bz) := (one_lt_div (by linarith)).mpr (by linarith)
    rw [max_eq_right (by linarith : (0 : ℝ) ≤ (c - (th - bz)) / (2 * bz)), min_eq_left hr.le]
  · rfl

/-- C5: for every threshold and positive blend zone, the curvature-only
blend weight is non-decreasing, equals 0 below the band, 1 above the band,
follows the linear ramp inside the band, and is continuous at both band
edges. -/
theorem blend_weight_ramp (th bz : ℝ) (hbz : 0 < bz) :
    Monotone (computeBlendWeightBase th bz) ∧
    (∀ c, c < th - bz → computeBlendWeightBase th bz c = 0) ∧
    (∀ c, c > th + bz → computeBlendWeightBase th bz c = 1) ∧
    (∀ c, th - bz ≤ c → c ≤ th + bz →
      computeBlendWeightBase th bz c = (c - (th - bz)) / (2 * bz)) ∧
    ContinuousAt (computeBlendWeightBase th bz) (th - bz) ∧
    ContinuousAt (computeBlendWeightBase th bz) (th + bz) := by
  have hfun : computeBlendWeightBase th bz =
      fun c => min 1 (max 0 ((c - (th - bz)) / (2 * bz))) :=
    funext fun c => blendBase_eq_clip th bz c hbz
  have hcont : Continuous fun c : ℝ => min 1 (max 0 ((c - (th - bz)) / (2 * bz))) :=
    continuous_const.min (continuous_const.max
      ((continuous_id.sub continuous_const).div_const _))
  refine ⟨?_, ?_, ?_, ?_, ?_, ?_⟩
  · rw [hfun]
    have hmono0 : Monotone fun c : ℝ => (c - (th - bz)) / (2 * bz) := fun x y h =>
      (div_le_div_iff_of_pos_right (by positivity)).mpr (by linarith)
    exact monotone_const.min (monotone_const.max hmono0)
  · intro c h
    unfold computeBlendWeightBase
    rw [if_pos h]
  · intro c h
    unfold computeBlendWeightBase
    rw [if_neg (by linarith), if_pos h]
  · intro c h1 h2
    unfold computeBlendWeightBase clip
    rw [if_neg (not_lt.mpr h1), if_neg (not_lt.mpr h2)]
    rw [max_eq_right (div_nonneg (by linarith) (by linarith)),
      min_eq_right ((div_le_one (by linarith)).mpr (by linarith))]
  · rw [hfun]
    exact hcont.continuousAt
  · rw [hfun]
    exact hcont.continuousAt

/-- A concrete instance for C5: with the default threshold 0.05 and blend
zone 0.02, the weight at the threshold itself sits on the linear ramp. -/
theorem blend_weight_ramp_witness :
    (0 : ℝ) < 0.02 ∧
    computeBlendWeightBase 0.05 0.02 0.05 = (0.05 - (0.05 - 0.02)) / (2 * 0.02) :=
  ⟨by norm_num,
    (blend_weight_ramp 0.05 0.02 (by norm_num)).2.2.2.1 0.05 (by norm_num) (by norm_num)⟩

/-- The path heading at waypoint `ci` as the claim states it: direction to
the next waypoint when one exists, else the waypoint's stored heading. -/
def pathYawAt (ws : List Waypoint) (ci : ℕ) : ℝ :=
  if ci + 1 < ws.length then
    atan2 ((wpAt ws (ci + 1)).loc.y - (wpAt ws ci).loc.y)
      ((wpAt ws (ci + 1)).loc.x - (wpAt ws ci).loc.x)
  else radians (wpAt ws ci).yawDeg

lemma computeHeadingError_eq_pathYaw (t : Transform) (ws : List Waypoint) (ci : ℕ) :
    computeHeadingError t (wpAt ws ci)
      (if ci + 1 < ws.length then some (wpAt ws (ci + 1)) else none) =
    wrapAngle (pathYawAt ws ci - radians t.yawDeg) := by
  unfold computeHeadingError pathYawAt
  split_ifs <;> rfl

/-- C3: on a non-empty path the Stanley steering is the clipped, normalized
value of `headingError + arctan(k * crossTrackError / max(speed, 0.1))`,
where the heading error is the wrapped difference between the path heading
at the nearest waypoint (direction to the next waypoint when it exists, the
stored heading otherwise) and the vehicle heading; it is exactly 0 when both
errors vanish. -/
theorem stanley_steering_formula (k sp : ℝ) (t : Transform) (w : Waypoint)
    (rest : List Waypoint) :
    stanleyComputeSteering k t sp (w :: rest) =
      .ok (clip (-1) 1
        ((wrapAngle (pathYawAt (w :: rest) (nearestIdx t.location (w :: rest)) -
            radians t.yawDeg) +
          Real.arctan (k * computeCrossTrackError t
            (wpAt (w :: rest) (nearestIdx t.location (w :: rest))) / max sp 0.1)) /
          radians 70)) ∧
    (computeCrossTrackError t (wpAt (w :: rest) (nearestIdx t.location (w :: rest))) = 0 →
      wrapAngle (pathYawAt (w :: rest) (nearestIdx t.location (w :: rest)) -
        radians t.yawDeg) = 0 →
      stanleyComputeSteering k t sp (w :: rest) = .ok 0) := by
  constructor
  · simp only [stanleyComputeSteering]
    rw [computeHeadingError_eq_pathYaw]
  · intro h1 h2
    simp only [stanleyComputeSteering]
    rw [computeHeadingError_eq_pathYaw, h1, h2]
    simp only [mul_zero, zero_div, Real.arctan_zero, add_zero, zero_add]
    rw [clip_zero]

lemma dist3_zero_zero : dist3 ⟨0, 0, 0⟩ ⟨0, 0, 0⟩ = 0 := by
  rw [dist3, show ((0 : ℝ) - 0) ^ 2 + ((0 : ℝ) - 0) ^ 2 + ((0 : ℝ) - 0) ^ 2 = 0 by norm_num,
    Real.sqrt_zero]

lemma dist3_zero_one : dist3 ⟨0, 0, 0⟩ ⟨1, 0, 0⟩ = 1 := by
  rw [dist3, show ((0 : ℝ) - 1) ^ 2 + ((0 : ℝ) - 0) ^ 2 + ((0 : ℝ) - 0) ^ 2 = 1 by norm_num,
    Real.sqrt_one]

lemma dist3_nonneg (a b : Location) : 0 ≤ dist3 a b := Real.sqrt_nonneg _

lemma atan2_zero_one : atan2 0 1 = 0 := by
  rw [atan2, if_pos one_pos, zero_div, Real.arctan_zero]

lemma wrapAngle_zero : wrapAngle 0 = 0 := by
  rw [wrapAngle, Real.sin_zero, Real.cos_zero, atan2_zero_one]

/-- A concrete instance for C3: a vehicle sitting on the first waypoint of a
straight path along +x, heading along the path: both errors are 0 and the
Stanley steering is exactly 0. -/
theorem stanley_steering_witness :
    computeCrossTrackError { location := ⟨0, 0, 0⟩, yawDeg := 0 }
      (wpAt [⟨⟨0, 0, 0⟩, 0⟩, ⟨⟨1, 0, 0⟩, 0⟩]
        (nearestIdx ⟨0, 0, 0⟩ [⟨⟨0, 0, 0⟩, 0⟩, ⟨⟨1, 0, 0⟩, 0⟩])) = 0 ∧
    wrapAngle (pathYawAt [⟨⟨0, 0, 0⟩, 0⟩, ⟨⟨1, 0, 0⟩, 0⟩]
      (nearestIdx ⟨0, 0, 0⟩ [⟨⟨0, 0, 0⟩, 0⟩, ⟨⟨1, 0, 0⟩, 0⟩]) -
      radians ({ location := ⟨0, 0, 0⟩, yawDeg := 0 } : Transform).yawDeg) = 0 ∧
    stanleyComputeSteering 1 { location := ⟨0, 0, 0⟩, yawDeg := 0 } 5
      [⟨⟨0, 0, 0⟩, 0⟩, ⟨⟨1, 0, 0⟩, 0⟩] = .ok 0 := by
  have hn : nearestIdx ⟨0, 0, 0⟩ [⟨⟨0, 0, 0⟩, 0⟩, ⟨⟨1, 0, 0⟩, 0⟩] = 0 := by
    simp only [nearestIdx, nearestAux, dist3_zero_zero, dist3_zero_one]
    norm_num
  have hr0 : radians 0 = 0 := by rw [radians]; ring
  have hcte : computeCrossTrackError { location := ⟨0, 0, 0⟩, yawDeg := 0 }
      (wpAt [⟨⟨0, 0, 0⟩, 0⟩, ⟨⟨1, 0, 0⟩, 0⟩]
        (nearestIdx ⟨0, 0, 0⟩ [⟨⟨0, 0, 0⟩, 0⟩, ⟨⟨1, 0, 0⟩, 0⟩])) = 0 := by
    rw [hn]
    show computeCrossTrackError _ (wpAt _ 0) = 0
    norm_num [computeCrossTrackError, wpAt, radians]
  have hpy : pathYawAt [⟨⟨0, 0, 0⟩, 0⟩, ⟨⟨1, 0, 0⟩, 0⟩] 0 = 0 := by
    rw [pathYawAt, if_pos (by simp : 0 + 1 < ([⟨⟨0, 0, 0⟩, 0⟩, ⟨⟨1, 0, 0⟩, 0⟩] :
      List Waypoint).length)]
    simp only [wpAt, List.getD_cons_succ, List.getD_cons_zero]
    rw [show ((0 : ℝ) - 0) = 0 by norm_num, show ((1 : ℝ) - 0) = 1 by norm_num,
      atan2_zero_one]
  have hhe : wrapAngle (pathYawAt [⟨⟨0, 0, 0⟩, 0⟩, ⟨⟨1, 0, 0⟩, 0⟩]
      (nearestIdx ⟨0, 0, 0⟩ [⟨⟨0, 0, 0⟩, 0⟩, ⟨⟨1, 0, 0⟩, 0⟩]) -
      radians ({ location := ⟨0, 0, 0⟩, yawDeg := 0 } : Transform).yawDeg) = 0 := by
    rw [hn]
    dsimp only
    rw [hpy, hr0, show ((0 : ℝ) - 0) = 0 by norm_num, wrapAngle_zero]
  exact ⟨hcte, hhe, (stanley_steering_formula 1 5 _ _ _).2 hcte hhe⟩

lemma lookScan_spec (la : ℝ) (loc : Location) (ws : List Waypoint) (stop : ℕ) :
    ∀ n i, stop - i ≤ n →
      (∃ j, i ≤ j ∧ j < stop ∧ la ≤ dist3 loc (wpAt ws j).loc ∧
        (∀ m, i ≤ m → m < j → dist3 loc (wpAt ws m).loc < la) ∧
        lookScan la loc ws stop i = some (wpAt ws j).loc) ∨
      ((∀ j, i ≤ j → j < stop → dist3 loc (wpAt ws j).loc < la) ∧
        lookScan la loc ws stop i = none) := by
  intro n
  induction n with
  | zero =>
    intro i hn
    right
    refine ⟨fun j h1 h2 => absurd h2 (by omega), ?_⟩
    rw [lookScan, dif_neg (by omega)]
  | succ n ih =>
    intro i hn
    by_cases hlt : i < stop
    · by_cases hd : la ≤ dist3 loc (wpAt ws i).loc
      · left
        exact ⟨i, le_refl i, hlt, hd, fun m hm1 hm2 => absurd hm2 (by omega),
          by rw [lookScan, dif_pos hlt, if_pos hd]⟩
      · have hstep : lookScan la loc ws stop i = lookScan la loc ws stop (i + 1) := by
          conv_lhs => rw [lookScan]
          rw [dif_pos hlt, if_neg hd]
        rcases ih (i + 1) (by omega) with ⟨j, h1, h2, h3, h4, h5⟩ | ⟨h1, h2⟩
        · left
          refine ⟨j, by omega, h2, h3, fun m hm1 hm2 => ?_, by rw [hstep]; exact h5⟩
          rcases Nat.eq_or_lt_of_le hm1 with rfl | hm3
          · exact not_le.mp hd
          · exact h4 m hm3 hm2
        · right
          refine ⟨fun j hj1 hj2 => ?_, by rw [hstep]; exact h2⟩
          rcases Nat.eq_or_lt_of_le hj1 with rfl | hj3
          · exact not_le.mp hd
          · exact h1 j hj3 hj2
    · right
      refine ⟨fun j h1 h2 => absurd h2 (by omega), ?_⟩
      rw [lookScan, dif_neg hlt]

/-- C7: on a non-empty path, the lookahead search returns the position of
the first waypoint with index in [nearestIndex, nearestIndex + 50) inside
the path whose distance from the vehicle is at least the lookahead
distance; when no such waypoint exists in that horizon it returns the
waypoint at nearestIndex + 30 when that index is valid, and the path's
last waypoint otherwise. -/
theorem lookahead_first_match (la : ℝ) (loc : Location) (w : Waypoint)
    (rest : List Waypoint) :
    (∃ j, nearestIdx loc (w :: rest) ≤ j ∧
      j < min (nearestIdx loc (w :: rest) + 50) (w :: rest).length ∧
      la ≤ dist3 loc (wpAt (w :: rest) j).loc ∧
      (∀ m, nearestIdx loc (w :: rest) ≤ m → m < j →
        dist3 loc (wpAt (w :: rest) m).loc < la) ∧
      findLookaheadPoint la loc (w :: rest) = .ok (wpAt (w :: rest) j).loc) ∨
    ((∀ j, nearestIdx loc (w :: rest) ≤ j →
        j < min (nearestIdx loc (w :: rest) + 50) (w :: rest).length →
        dist3 loc (wpAt (w :: rest) j).loc < la) ∧
      findLookaheadPoint la loc (w :: rest) =
        .ok (if nearestIdx loc (w :: rest) + 30 < (w :: rest).length
          then (wpAt (w :: rest) (nearestIdx loc (w :: rest) + 30)).loc
          else ((w :: rest).getLastD default).loc)) := by
  have hs := lookScan_spec la loc (w :: rest)
    (min (nearestIdx loc (w :: rest) + 50) (w :: rest).length)
    (min (nearestIdx loc (w :: rest) + 50) (w :: rest).length - nearestIdx loc (w :: rest))
    (nearestIdx loc (w :: rest)) (le_refl _)
  rcases hs with ⟨j, h1, h2, h3, h4, h5⟩ | ⟨h1, h2⟩
  · left
    refine ⟨j, h1, h2, h3, h4, ?_⟩
    simp only [findLookaheadPoint]
    rw [h5]
  · right
    refine ⟨h1, ?_⟩
    simp only [findLookaheadPoint]
    rw [h2]
    split_ifs <;> rfl

/-- The arc length of all but the last segment of a polyline, as the claim
states it. -/
def arcLenExceptLast (pts : List (ℝ × ℝ)) : ℝ :=
  ((dispOf pts).dropLast.map fun d => Real.sqrt (d.1 ^ 2 + d.2 ^ 2)).sum

/-- The curvature formula of the claim, written over an explicit window of
points: the sum of the absolute angle-wrapped differences of consecutive
segment headings divided by the arc length excluding the last segment, 0
when fewer than 3 points are given or the arc length is at most 0.1. -/
def curvatureSpecFormula (pts : List (ℝ × ℝ)) : ℝ :=
  if pts.length < 3 then 0
  else
    let headings := (dispOf pts).map fun d => atan2 d.2 d.1
    let deltas := (headings.zip headings.tail).map fun p => |wrapAngle (p.2 - p.1)|
    if arcLenExceptLast pts ≤ 0.1 then 0 else deltas.sum / arcLenExceptLast pts

lemma abs_atan2_neg_left (y x : ℝ) : |atan2 (-y) x| = |atan2 y x| := by
  unfold atan2
  split_ifs
  all_goals first
    | rfl
    | (exfalso; linarith)
    | (have hy0 : y = 0 := (by linarith); rw [hy0, neg_zero])
    | rw [neg_div, Real.arctan_neg, abs_neg]
    | rw [neg_div, Real.arctan_neg,
        show -Real.arctan (y / x) - Real.pi = -(Real.arctan (y / x) + Real.pi) by ring,
        abs_neg]
    | rw [neg_div, Real.arctan_neg,
        show -Real.arctan (y / x) + Real.pi = -(Real.arctan (y / x) - Real.pi) by ring,
        abs_neg]
    | rw [abs_neg]

lemma abs_wrap_abs (a : ℝ) : |wrapAngle (|a|)| = |wrapAngle a| := by
  rcases abs_cases a with ⟨h1, _⟩ | ⟨h1, _⟩
  · rw [h1]
  · rw [h1]
    unfold wrapAngle
    rw [Real.sin_neg, Real.cos_neg, abs_atan2_neg_left]

lemma range_map_wpAt (ws : List Waypoint) (ci n : ℕ) (h : ci + n ≤ ws.length) :
    (List.range n).map (fun j => wpAt ws (ci + j)) = (ws.drop ci).take n := by
  apply List.ext_getElem
  · simp only [List.length_map, List.length_range, List.length_take, List.length_drop]
    omega
  · intro i h1 h2
    simp only [List.getElem_map, List.getElem_range, List.getElem_take, List.getElem_drop]
    rw [wpAt, List.getD_eq_getElem ws default
      (by simp only [List.length_map, List.length_range] at h1; omega)]

lemma wrap_chain (hs : List ℝ) :
    ((((hs.zip hs.tail).map fun p => |p.2 - p.1|).map fun a => wrapAngle a).map
      fun a => |a|) = (hs.zip hs.tail).map fun p => |wrapAngle (p.2 - p.1)| := by
  induction hs.zip hs.tail with
  | nil => rfl
  | cons p l ih =>
    simp only [List.map_cons]
    rw [ih, abs_wrap_abs]

lemma estimate_eq_specFormula (loc : Location) (ws : List Waypoint) (h ci n : ℕ)
    (hci : ci = nearestIdx loc ws) (hn : n = min (ci + h) (ws.length - 1) - ci) :
    estimatePathCurvature loc ws h =
      curvatureSpecFormula (((ws.drop ci).take n).map fun wp => (wp.loc.x, wp.loc.y)) := by
  unfold estimatePathCurvature
  dsimp only
  rw [← hci, ← hn]
  by_cases h3 : n < 3
  · rw [if_pos h3]
    unfold curvatureSpecFormula
    rw [if_pos (by
      simp only [List.length_map, List.length_take, List.length_drop]
      omega)]
  · rw [if_neg h3]
    have hle : ci + n ≤ ws.length := by omega
    have hpoints : (List.range n).map
        (fun j => ((wpAt ws (ci + j)).loc.x, (wpAt ws (ci + j)).loc.y)) =
        ((ws.drop ci).take n).map fun wp => (wp.loc.x, wp.loc.y) := by
      rw [← range_map_wpAt ws ci n hle, List.map_map]
      rfl
    rw [hpoints]
    have hplen : (((ws.drop ci).take n).map fun wp => (wp.loc.x, wp.loc.y)).length = n := by
      simp only [List.length_map, List.length_take, List.length_drop]
      omega
    have hhlen : ((dispOf (((ws.drop ci).take n).map fun wp => (wp.loc.x, wp.loc.y))).map
        fun d => atan2 d.2 d.1).length = n - 1 := by
      simp only [dispOf, List.length_map, List.length_zip, List.length_tail,
        List.length_take, List.length_drop]
      omega
    unfold curvatureSpecFormula arcLenExceptLast
    dsimp only
    rw [hplen, hhlen, wrap_chain]
    split_ifs
    all_goals first | rfl | omega | linarith

/-- C4 (amended): the curvature estimate with horizon `h` equals the claim's
formula (sum of absolute wrapped heading differences over the arc length
excluding the last segment, with the fewer-than-3-points and tiny-arc-length
guards) evaluated on the window of waypoints from the nearest index up to
`min(nearestIndex + h, length - 1)` exclusive - i.e. the window never
includes the path's final waypoint. -/
theorem curvature_estimator_window (loc : Location) (ws : List Waypoint) (h : ℕ) :
    estimatePathCurvature loc ws h =
      curvatureSpecFormula (((ws.drop (nearestIdx loc ws)).take
        (min (nearestIdx loc ws + h) (ws.length - 1) - nearestIdx loc ws)).map
        fun wp => (wp.loc.x, wp.loc.y)) ∧
    ((((ws.drop (nearestIdx loc ws)).take
        (min (nearestIdx loc ws + h) (ws.length - 1) - nearestIdx loc ws)).map
        fun wp => (wp.loc.x, wp.loc.y)).length < 3 →
      estimatePathCurvature loc ws h = 0) ∧
    (arcLenExceptLast (((ws.drop (nearestIdx loc ws)).take
        (min (nearestIdx loc ws + h) (ws.length - 1) - nearestIdx loc ws)).map
        fun wp => (wp.loc.x, wp.loc.y)) ≤ 0.1 →
      estimatePathCurvature loc ws h = 0) := by
  have hmain := estimate_eq_specFormula loc ws h (nearestIdx loc ws)
    (min (nearestIdx loc ws + h) (ws.length - 1) - nearestIdx loc ws) rfl rfl
  refine ⟨hmain, fun hl => ?_, fun ha => ?_⟩
  · rw [hmain]
    unfold curvatureSpecFormula
    rw [if_pos hl]
  · rw [hmain]
    unfold curvatureSpecFormula
    by_cases hl : (((ws.drop (nearestIdx loc ws)).take
        (min (nearestIdx loc ws + h) (ws.length - 1) - nearestIdx loc ws)).map
        fun wp => (wp.loc.x, wp.loc.y)).length < 3
    · rw [if_pos hl]
    · rw [if_neg hl]
      dsimp only
      rw [if_pos ha]

/-- A concrete instance for C4 (amended): on a 3-waypoint bent path both the
code and the amended formula give 0 (the window drops the final waypoint,
leaving 2 points). -/
theorem curvature_estimator_window_witness :
    List.length ((([⟨⟨0, 0, 0⟩, 0⟩, ⟨⟨1, 0, 0⟩, 0⟩, ⟨⟨1, 1, 0⟩, 0⟩] :
        List Waypoint).drop (nearestIdx ⟨0, 0, 0⟩ [⟨⟨0, 0, 0⟩, 0⟩, ⟨⟨1, 0, 0⟩, 0⟩,
        ⟨⟨1, 1, 0⟩, 0⟩])).take
      (min (nearestIdx ⟨0, 0, 0⟩ [⟨⟨0, 0, 0⟩, 0⟩, ⟨⟨1, 0, 0⟩, 0⟩, ⟨⟨1, 1, 0⟩, 0⟩] + 10)
        (([⟨⟨0, 0, 0⟩, 0⟩, ⟨⟨1, 0, 0⟩, 0⟩, ⟨⟨1, 1, 0⟩, 0⟩] : List Waypoint).length - 1) -
        nearestIdx ⟨0, 0, 0⟩ [⟨⟨0, 0, 0⟩, 0⟩, ⟨⟨1, 0, 0⟩, 0⟩, ⟨⟨1, 1, 0⟩, 0⟩]) |>.map
      (fun wp => (wp.loc.x, wp.loc.y))) < 3 ∧
    estimatePathCurvature ⟨0, 0, 0⟩ [⟨⟨0, 0, 0⟩, 0⟩, ⟨⟨1, 0, 0⟩, 0⟩, ⟨⟨1, 1, 0⟩, 0⟩] 10 = 0 := by
  have hn3 : nearestIdx ⟨0, 0, 0⟩ [⟨⟨0, 0, 0⟩, 0⟩, ⟨⟨1, 0, 0⟩, 0⟩, ⟨⟨1, 1, 0⟩, 0⟩] = 0 := by
    simp only [nearestIdx, nearestAux, dist3_zero_zero, dist3_zero_one]
    rw [if_neg (by norm_num : ¬ (1 : ℝ) < 0),
      if_neg (not_lt.mpr (dist3_nonneg _ _))]
  have hl : List.length ((([⟨⟨0, 0, 0⟩, 0⟩, ⟨⟨1, 0, 0⟩, 0⟩, ⟨⟨1, 1, 0⟩, 0⟩] :
      List Waypoint).drop (nearestIdx ⟨0, 0, 0⟩ [⟨⟨0, 0, 0⟩, 0⟩, ⟨⟨1, 0, 0⟩, 0⟩,
      ⟨⟨1, 1, 0⟩, 0⟩])).take
      (min (nearestIdx ⟨0, 0, 0⟩ [⟨⟨0, 0, 0⟩, 0⟩, ⟨⟨1, 0, 0⟩, 0⟩, ⟨⟨1, 1, 0⟩, 0⟩] + 10)
        (([⟨⟨0, 0, 0⟩, 0⟩, ⟨⟨1, 0, 0⟩, 0⟩, ⟨⟨1, 1, 0⟩, 0⟩] : List Waypoint).length - 1) -
        nearestIdx ⟨0, 0, 0⟩ [⟨⟨0, 0, 0⟩, 0⟩, ⟨⟨1, 0, 0⟩, 0⟩, ⟨⟨1, 1, 0⟩, 0⟩]) |>.map
      (fun wp => (wp.loc.x, wp.loc.y))) < 3 := by
    rw [hn3]
    simp
  exact ⟨hl, ((curvature_estimator_window ⟨0, 0, 0⟩
    [⟨⟨0, 0, 0⟩, 0⟩, ⟨⟨1, 0, 0⟩, 0⟩, ⟨⟨1, 1, 0⟩, 0⟩] 10).2.1) hl⟩

lemma nearestIdx_bent : nearestIdx ⟨0, 0, 0⟩
    [⟨⟨0, 0, 0⟩, 0⟩, ⟨⟨1, 0, 0⟩, 0⟩, ⟨⟨1, 1, 0⟩, 0⟩] = 0 := by
  simp only [nearestIdx, nearestAux, dist3_zero_zero, dist3_zero_one]
  rw [if_neg (by norm_num : ¬ (1 : ℝ) < 0), if_neg (not_lt.mpr (dist3_nonneg _ _))]

lemma atan2_one_zero : atan2 1 0 = Real.pi / 2 := by
  rw [atan2, if_neg (lt_irrefl 0), if_neg (lt_irrefl 0), if_pos one_pos]

lemma dispOf_bent : dispOf [((0 : ℝ), (0 : ℝ)), ((1 : ℝ), (0 : ℝ)), ((1 : ℝ), (1 : ℝ))] =
    [((1 : ℝ), (0 : ℝ)), ((0 : ℝ), (1 : ℝ))] := by
  norm_num [dispOf]

lemma arcLen_bent :
    arcLenExceptLast [((0 : ℝ), (0 : ℝ)), ((1 : ℝ), (0 : ℝ)), ((1 : ℝ), (1 : ℝ))] = 1 := by
  unfold arcLenExceptLast
  rw [dispOf_bent]
  norm_num [List.dropLast, Real.sqrt_one]

lemma specFormula_bent :
    curvatureSpecFormula [((0 : ℝ), (0 : ℝ)), ((1 : ℝ), (0 : ℝ)), ((1 : ℝ), (1 : ℝ))] =
      Real.pi / 2 := by
  unfold curvatureSpecFormula
  rw [if_neg (by norm_num)]
  dsimp only
  rw [dispOf_bent, arcLen_bent, if_neg (by norm_num)]
  simp only [List.map_cons, List.map_nil]
  rw [atan2_zero_one, atan2_one_zero]
  simp only [List.tail_cons, List.zip_cons_cons, List.zip_nil_right, List.map_cons,
    List.map_nil, List.sum_cons, List.sum_nil]
  rw [sub_zero, wrapAngle, Real.sin_pi_div_two, Real.cos_pi_div_two, atan2_one_zero,
    abs_of_nonneg (by positivity : (0 : ℝ) ≤ Real.pi / 2)]
  rw [add_zero, div_one]

/-- C4 counterexample: on a 3-waypoint bent path the estimator returns 0,
while the claim's formula over "up to 10 waypoints starting at the nearest
index" (which includes the path's last waypoint) yields pi/2: the code's
window always drops the path's final waypoint, so the claimed equality
fails. -/
theorem curvature_estimator_cex :
    estimatePathCurvature ⟨0, 0, 0⟩ [⟨⟨0, 0, 0⟩, 0⟩, ⟨⟨1, 0, 0⟩, 0⟩, ⟨⟨1, 1, 0⟩, 0⟩] 10 = 0 ∧
    curvatureSpecFormula ((([⟨⟨0, 0, 0⟩, 0⟩, ⟨⟨1, 0, 0⟩, 0⟩, ⟨⟨1, 1, 0⟩, 0⟩] :
        List Waypoint).drop (nearestIdx ⟨0, 0, 0⟩ [⟨⟨0, 0, 0⟩, 0⟩, ⟨⟨1, 0, 0⟩, 0⟩,
        ⟨⟨1, 1, 0⟩, 0⟩]) |>.take 10).map fun wp => (wp.loc.x, wp.loc.y)) = Real.pi / 2 ∧
    (Real.pi / 2 : ℝ) ≠ 0 := by
  refine ⟨?_, ?_, by positivity⟩
  · unfold estimatePathCurvature
    dsimp only
    rw [nearestIdx_bent]
    rw [if_pos (by simp)]
  · rw [nearestIdx_bent]
    have hwin : (([⟨⟨0, 0, 0⟩, 0⟩, ⟨⟨1, 0, 0⟩, 0⟩, ⟨⟨1, 1, 0⟩, 0⟩] :
        List Waypoint).drop 0 |>.take 10).map (fun wp => (wp.loc.x, wp.loc.y)) =
        [((0 : ℝ), (0 : ℝ)), ((1 : ℝ), (0 : ℝ)), ((1 : ℝ), (1 : ℝ))] := by
      simp
    rw [hwin, specFormula_bent]

end LaneKeep
